import Mathlib

/-!
Verification of the download orchestration and output-reconciliation engine of a
web front-end for a command-line audiobook downloader.

This file shallowly embeds, in Lean, the pieces of the code base that the
spec's claims are about:

* `app/output_processor.py`: the progress interpreter (`parse_progress_line`),
  the stream reader (`read_process_stream`), the output-path resolver
  (`find_output_file_in_lines`), the error formatter (`format_error_messages`)
  and the metadata probe adapter (`extract_audio_metadata`);
* `app/download_manager.py`: the task scheduler (`add_download` /
  `_download_audiobook` / `cancel_task`), the registry update, and the staging
  reconciler (`_unwrap_staging_dir`, `_unique_destination`,
  `_merge_dir_contents`).

Python strings are modelled as Lean `String`s (lists of characters); byte
streams as lists of characters (the code decodes UTF-8 with replacement before
any logic that matters here); machine integers as `Nat`/`Int`; the filesystem
as explicit association lists of named nodes; `None`-able values as `Option`.
-/

namespace AudiobookDlWeb

/-! ## Basic string helpers

Small executable models of the Python string operations the code uses.
All of them work on `List Char` and are wrapped into `String` operations.
-/

/-- `leadsWith needle l` is true iff `needle` is an initial segment of `l`.
Models Python `str.startswith` on the character lists. -/
def leadsWith {α : Type} [DecidableEq α] : List α → List α → Bool
  | [], _ => true
  | _ :: _, [] => false
  | a :: as, b :: bs => a = b && leadsWith as bs

/-- First index at which `needle` occurs inside `l`, if any.
Models Python `str.index` / the `in` containment test (first occurrence). -/
def firstIndexOfSub {α : Type} [DecidableEq α] (needle : List α) : List α → Option Nat
  | [] => if needle = [] then some 0 else none
  | c :: rest =>
    if leadsWith needle (c :: rest) then some 0
    else (firstIndexOfSub needle rest).map (· + 1)

/-- Python `sub in s` on strings. -/
def containsSub (s sub : String) : Bool :=
  (firstIndexOfSub sub.data s.data).isSome

/-- Python `str.lower()` (ASCII: lines handled by the tool are ASCII). -/
def strLower (s : String) : String :=
  String.mk (s.data.map Char.toLower)

/-- Python `str.endswith` (used with audio-extension suffixes). -/
def endsWithStr (s suffix : String) : Bool :=
  leadsWith suffix.data.reverse s.data.reverse

/-- Characters treated as whitespace by Python `str.strip()` (ASCII range). -/
def isPySpace (c : Char) : Bool :=
  c = ' ' || c = '\t' || c = '\n' || c = '\x0d' || c = '\x0b' || c = '\x0c'

/-- Python `str.strip()` (no arguments): drop whitespace on both ends. -/
def pyStrip (s : String) : String :=
  String.mk (((s.data.dropWhile isPySpace).reverse.dropWhile isPySpace).reverse)

/-- Python `str.lstrip(chars)`: drop characters from the given set on the left. -/
def pyLstripSet (chars : List Char) (s : String) : String :=
  String.mk (s.data.dropWhile (fun c => c ∈ chars))

/-- Python `str.strip(chars)`: drop characters from the given set on both ends. -/
def pyStripSet (chars : List Char) (s : String) : String :=
  String.mk (((s.data.dropWhile (fun c => c ∈ chars)).reverse.dropWhile
      (fun c => c ∈ chars)).reverse)

/-- Python slicing `s[:n]` by characters. -/
def strTake (s : String) (n : Nat) : String := String.mk (s.data.take n)

/-- Python slicing `s[n:]` by characters. -/
def strDrop (s : String) (n : Nat) : String := String.mk (s.data.drop n)

/-- Numeric value of a digit run, as Python `int` on a decimal digit string. -/
def digitsVal (l : List Char) : Nat :=
  l.foldl (fun a c => a * 10 + (c.toNat - 48)) 0

/-! ## ANSI escape stripping — `output_processor.strip_ansi_codes`

Models `re.sub` of the pattern `\x1B` followed by `(?:[\x40-\x5A\x5C-\x5F]|\[[\x30-\x3F]*[\x20-\x2F]*[\x40-\x7E])` (the source writes the classes with
literal characters): an ESC character followed by either a single character in
the Fe range (`0x40`–`0x5A` or `0x5C`–`0x5F`), or a CSI sequence `[`, parameter
bytes (`0x30`–`0x3F`), intermediate bytes (`0x20`–`0x2F`) and one final byte
(`0x40`–`0x7E`).  Non-matching text (including a dangling ESC) is kept.
The recursion is fuelled to stay structurally recursive; the wrapper feeds
enough fuel (every step consumes at least one character).
-/

/-- Single-character Fe escape class `[@-Z\\-_]`. -/
def ansiFeChar (c : Char) : Bool :=
  (0x40 ≤ c.toNat && c.toNat ≤ 0x5A) || (0x5C ≤ c.toNat && c.toNat ≤ 0x5F)

/-- CSI parameter byte class `[0-?]`. -/
def csiParamChar (c : Char) : Bool := 0x30 ≤ c.toNat && c.toNat ≤ 0x3F

/-- CSI intermediate byte class `[\x20-\x2F]` (space to slash). -/
def csiInterChar (c : Char) : Bool := 0x20 ≤ c.toNat && c.toNat ≤ 0x2F

/-- CSI final byte class `[@-~]`. -/
def csiFinalChar (c : Char) : Bool := 0x40 ≤ c.toNat && c.toNat ≤ 0x7E

/-- Try to consume a CSI body (after `ESC [`): parameter bytes, intermediate
bytes, then one final byte.  Returns the rest of the input on success. -/
def matchCSI (l : List Char) : Option (List Char) :=
  match (l.dropWhile csiParamChar).dropWhile csiInterChar with
  | [] => none
  | c :: rest => if csiFinalChar c then some rest else none

/-- Fuelled worker for ANSI stripping. -/
def stripAnsiCore : Nat → List Char → List Char
  | 0, l => l
  | _ + 1, [] => []
  | fuel + 1, c :: rest =>
    if c = '\x1b' then
      match rest with
      | '[' :: r2 =>
        match matchCSI r2 with
        | some r3 => stripAnsiCore fuel r3
        | none => c :: stripAnsiCore fuel rest
      | d :: r2 =>
        if ansiFeChar d then stripAnsiCore fuel r2
        else c :: stripAnsiCore fuel rest
      | [] => [c]
    else c :: stripAnsiCore fuel rest

/-- `output_processor.strip_ansi_codes`. -/
def strip_ansi_codes (s : String) : String :=
  String.mk (stripAnsiCore s.data.length s.data)

/-! ## Progress interpreter — `output_processor.parse_progress_line`

`parse_progress_line(line, current_progress)` lower-cases the line, classifies
it by keyword family (first match wins), then lets a literal `NN%` in the raw
line override the classified progress.  Progress is a Python `int`; in this
system it is only ever assigned non-negative values, so it is modelled as `Nat`.
-/

/-- Keyword test for the authentication branch:
`"authenticating" in line_lower or "login" in line_lower`. -/
def isAuthLine (lower : String) : Bool :=
  containsSub lower "authenticating" || containsSub lower "login"

/-- Keyword test for the download branch:
`"downloading" in line_lower or "download" in line_lower`. -/
def isDownloadLine (lower : String) : Bool :=
  containsSub lower "downloading" || containsSub lower "download"

/-- Keyword test for the combine branch. -/
def isCombineLine (lower : String) : Bool :=
  containsSub lower "combining" || containsSub lower "merge" || containsSub lower "concat"

/-- Keyword test for the chapter branch. -/
def isChapterLine (lower : String) : Bool :=
  containsSub lower "chapter"

/-- Keyword test for the save branch. -/
def isSaveLine (lower : String) : Bool :=
  containsSub lower "saving" || containsSub lower "writing"

/-- Keyword test for the completion branch. -/
def isCompleteLine (lower : String) : Bool :=
  containsSub lower "complete" || containsSub lower "finished" || containsSub lower "done"

/-- Fuelled worker modelling `re.search(r"(\d+)%", line)`: the leftmost maximal
run of decimal digits that is immediately followed by `'%'` (a match of
`\d+%` starting inside a digit run must consume the whole run, so runs not
followed by `'%'` can be skipped wholesale). -/
def extractPercentCore : Nat → List Char → Option Nat
  | 0, _ => none
  | _ + 1, [] => none
  | fuel + 1, c :: rest =>
    if c.isDigit then
      match rest.dropWhile Char.isDigit with
      | '%' :: _ => some (digitsVal (c :: rest.takeWhile Char.isDigit))
      | after => extractPercentCore fuel after
    else extractPercentCore fuel rest

/-- The `NN%` extraction of `parse_progress_line`. -/
def extractPercent (line : String) : Option Nat :=
  extractPercentCore line.data.length line.data

/-- `output_processor.parse_progress_line`. -/
def parse_progress_line (line : String) (current_progress : Nat) : Nat × String :=
  let lower := strLower line
  let defaultMsg := if line = "" then "Processing..." else strTake line 100
  let classified : Nat × String :=
    if isAuthLine lower then (10, "Authenticating with service...")
    else if isDownloadLine lower then
      (if current_progress < 20 then 20
       else if current_progress < 70 then min (current_progress + 5) 70
       else current_progress,
       "Downloading audiobook files...")
    else if isCombineLine lower then (75, "Combining audio files...")
    else if isChapterLine lower then (85, "Adding chapter information...")
    else if isSaveLine lower then (90, "Saving audiobook...")
    else if isCompleteLine lower then (95, "Finalizing...")
    else (current_progress, defaultMsg)
  match extractPercent line with
  | some n => (n, classified.2)
  | none => classified

/-- Thread `parse_progress_line` through a list of lines starting from the
given progress, collecting the successive progress values (this is how
`_download_audiobook`'s `on_line` callback threads `task.progress`). -/
def progressTrace (lines : List String) (start : Nat) : List Nat :=
  (lines.foldl
    (fun (acc : List Nat × Nat) l =>
      let p := (parse_progress_line l acc.2).1
      (acc.1 ++ [p], p))
    ([], start)).1

/-! ### Claims C5 and C6 -/

/-- C5: feeding the progress interpreter, in order, one authentication line,
three download lines, one combine line, one chapter line, one save line and
one completion line (none containing a literal percentage), starting from
progress 0 and threading each returned progress into the next call, yields
exactly the progress sequence 10, 20, 25, 30, 75, 85, 90, 95, following the
keyword precedence of `parse_progress_line` (first match wins). -/
theorem claim_C5_progress_sequence
    (l1 l2 l3 l4 l5 l6 l7 l8 : String)
    (h1 : isAuthLine (strLower l1) = true)
    (h2a : isAuthLine (strLower l2) = false) (h2b : isDownloadLine (strLower l2) = true)
    (h3a : isAuthLine (strLower l3) = false) (h3b : isDownloadLine (strLower l3) = true)
    (h4a : isAuthLine (strLower l4) = false) (h4b : isDownloadLine (strLower l4) = true)
    (h5a : isAuthLine (strLower l5) = false) (h5b : isDownloadLine (strLower l5) = false)
    (h5c : isCombineLine (strLower l5) = true)
    (h6a : isAuthLine (strLower l6) = false) (h6b : isDownloadLine (strLower l6) = false)
    (h6c : isCombineLine (strLower l6) = false) (h6d : isChapterLine (strLower l6) = true)
    (h7a : isAuthLine (strLower l7) = false) (h7b : isDownloadLine (strLower l7) = false)
    (h7c : isCombineLine (strLower l7) = false) (h7d : isChapterLine (strLower l7) = false)
    (h7e : isSaveLine (strLower l7) = true)
    (h8a : isAuthLine (strLower l8) = false) (h8b : isDownloadLine (strLower l8) = false)
    (h8c : isCombineLine (strLower l8) = false) (h8d : isChapterLine (strLower l8) = false)
    (h8e : isSaveLine (strLower l8) = false) (h8f : isCompleteLine (strLower l8) = true)
    (hp1 : extractPercent l1 = none) (hp2 : extractPercent l2 = none)
    (hp3 : extractPercent l3 = none) (hp4 : extractPercent l4 = none)
    (hp5 : extractPercent l5 = none) (hp6 : extractPercent l6 = none)
    (hp7 : extractPercent l7 = none) (hp8 : extractPercent l8 = none) :
    progressTrace [l1, l2, l3, l4, l5, l6, l7, l8] 0 = [10, 20, 25, 30, 75, 85, 90, 95] := by
  simp [progressTrace, parse_progress_line,
    h1, h2a, h2b, h3a, h3b, h4a, h4b, h5a, h5b, h5c, h6a, h6b, h6c, h6d,
    h7a, h7b, h7c, h7d, h7e, h8a, h8b, h8c, h8d, h8e, h8f,
    hp1, hp2, hp3, hp4, hp5, hp6, hp7, hp8]

/-- Witness for C5 at a concrete synthetic line sequence. -/
theorem claim_C5_progress_sequence_witness :
    progressTrace
      ["Authenticating", "Downloading part one", "Downloading part two",
       "Downloading part three", "Combining files", "Adding chapters",
       "Saving output", "Finished"] 0 = [10, 20, 25, 30, 75, 85, 90, 95] :=
  claim_C5_progress_sequence
    "Authenticating" "Downloading part one" "Downloading part two"
    "Downloading part three" "Combining files" "Adding chapters"
    "Saving output" "Finished"
    (by decide) (by decide) (by decide) (by decide) (by decide) (by decide)
    (by decide) (by decide) (by decide) (by decide) (by decide) (by decide)
    (by decide) (by decide) (by decide) (by decide) (by decide) (by decide)
    (by decide) (by decide) (by decide) (by decide) (by decide) (by decide)
    (by decide) (by decide) (by decide) (by decide) (by decide) (by decide)
    (by decide) (by decide) (by decide)

/-- C6 counterexample: on the line `"at 500% now"` with current progress 0
(which is between 0 and 100), the progress interpreter returns 500 — the
literal `NN%` override is applied without clamping, so the returned progress
is not between 0 and 100. -/
theorem claim_C6_counterexample :
    (parse_progress_line "at 500% now" 0).1 = 500 ∧
      ¬ (parse_progress_line "at 500% now" 0).1 ≤ 100 := by
  decide

/-- C6 amended: for every input line and current progress between 0 and 100,
the progress returned by `parse_progress_line` is between 0 and 100 *provided
any literal `NN%` value contained in the line is itself at most 100* (the
override applies the parsed number without clamping). -/
theorem claim_C6_progress_bounds_amended (line : String) (cur : Nat)
    (hcur : cur ≤ 100)
    (hpct : ∀ n, extractPercent line = some n → n ≤ 100) :
    (parse_progress_line line cur).1 ≤ 100 := by
  unfold parse_progress_line
  cases h : extractPercent line with
  | some n => simpa using hpct n h
  | none =>
    dsimp only
    repeat' split
    all_goals omega

/-- Witness for the amended C6 at the line `"Downloading: 42%"` and current
progress 0. -/
theorem claim_C6_progress_bounds_amended_witness :
    (parse_progress_line "Downloading: 42%" 0).1 ≤ 100 :=
  claim_C6_progress_bounds_amended "Downloading: 42%" 0 (by decide)
    (fun n hn => by
      rw [show extractPercent "Downloading: 42%" = some 42 from rfl] at hn
      cases hn
      decide)

/-! ## Stream reader — `output_processor.read_process_stream`

The coroutine reads the subprocess stream in 256-byte chunks into a buffer and
repeatedly splits the buffer at the first `\n` or `\r`; at end of stream the
remaining buffer is flushed.  Since the loop always splits at the *first* line
terminator in the buffer, the captured line sequence depends only on the
concatenation of all chunks, so the input is modelled as a single character
list (the code decodes UTF-8 with replacement; lines are modelled as already
decoded characters).

Each complete segment is `.strip()`-ped, ANSI-stripped, and appended only when
non-empty and different from the previously captured line
(`if not lines_list or lines_list[-1] != line_text`).  The final flushed
segment is `.strip()`-ped and ANSI-stripped but appended whenever non-empty,
*without* the duplicate check.
-/

/-- Split the stream contents at every `\n` or `\r`: the list of complete
segments, plus the final unterminated buffer. -/
def splitSegsAux (cur : List Char) : List Char → List (List Char) × List Char
  | [] => ([], cur.reverse)
  | c :: rest =>
    if c = '\n' ∨ c = '\x0d' then
      let (segs, fin) := splitSegsAux [] rest
      (cur.reverse :: segs, fin)
    else splitSegsAux (c :: cur) rest

/-- `line_text = line_bytes.decode(...).strip()` then `strip_ansi_codes`. -/
def processSegment (seg : List Char) : String :=
  strip_ansi_codes (pyStrip (String.mk seg))

/-- Append a processed complete line: only when non-empty, and only when
different from the previously captured line. -/
def appendDeduped (acc : List String) (t : String) : List String :=
  if t ≠ "" then
    (if acc = [] ∨ acc.getLast? ≠ some t then acc ++ [t] else acc)
  else acc

/-- The lines captured by the main loop (all complete, terminator-ended
segments), with the consecutive-duplicate check. -/
def completeLines (input : List Char) : List String :=
  ((splitSegsAux [] input).1.map processSegment).foldl appendDeduped []

/-- `output_processor.read_process_stream`: lines captured from a whole
stream, including the final end-of-stream flush (which has no duplicate
check). -/
def read_process_stream (input : List Char) : List String :=
  let acc := completeLines input
  let fin := (splitSegsAux [] input).2
  if fin ≠ [] ∧ processSegment fin ≠ "" then acc ++ [processSegment fin] else acc

/-! ### Claim C7 -/

/-- Auxiliary: folding `appendDeduped` preserves "no two consecutive captured
lines are equal". -/
theorem appendDeduped_chain (acc : List String) (t : String)
    (h : List.Chain' (fun a b => a ≠ b) acc) :
    List.Chain' (fun a b => a ≠ b) (appendDeduped acc t) := by
  unfold appendDeduped
  split
  · split
    · rename_i hc
      rw [List.chain'_append]
      refine ⟨h, List.chain'_singleton t, ?_⟩
      intro x hx y hy
      cases hc with
      | inl hnil => simp [hnil] at hx
      | inr hlast =>
        simp only [List.head?_cons, Option.mem_def, Option.some.injEq] at hy
        subst hy
        intro hxy
        exact hlast (by rw [← hxy]; exact hx)
    · exact h
  · exact h

theorem foldl_appendDeduped_chain (ts : List String) (acc : List String)
    (h : List.Chain' (fun a b => a ≠ b) acc) :
    List.Chain' (fun a b => a ≠ b) (ts.foldl appendDeduped acc) := by
  induction ts generalizing acc with
  | nil => exact h
  | cons t ts ih => exact ih _ (appendDeduped_chain acc t h)

/-- C7 counterexample: for the stream contents `"abc\nabc"`, the captured
line list is `["abc", "abc"]` — the final line flushed at end of stream is
appended without the duplicate check, so the list *does* contain a line equal
to the line captured immediately before it. -/
theorem claim_C7_counterexample :
    read_process_stream "abc\nabc".data = ["abc", "abc"] ∧
      ¬ List.Chain' (fun a b => a ≠ b) (read_process_stream "abc\nabc".data) := by
  constructor
  · rfl
  · rw [show read_process_stream "abc\nabc".data = ["abc", "abc"] from rfl]
    intro h
    rw [List.chain'_cons] at h
    exact h.1 rfl

/-- C7 amended: for every input stream, a line identical to the immediately
preceding captured line is never appended *by the main loop*; the resulting
capture list is the dedup-checked main-loop lines followed by at most one
final flushed line, which is appended without the duplicate check (and may
therefore equal its predecessor). -/
theorem claim_C7_stream_dedup_amended (input : List Char) :
    List.Chain' (fun a b => a ≠ b) (completeLines input) ∧
      (read_process_stream input = completeLines input ∨
        ∃ t, t ≠ "" ∧ read_process_stream input = completeLines input ++ [t]) := by
  constructor
  · exact foldl_appendDeduped_chain _ _ List.chain'_nil
  · unfold read_process_stream
    dsimp only
    split
    · rename_i hcond
      exact Or.inr ⟨_, hcond.2, rfl⟩
    · exact Or.inl rfl

/-! ## Error formatting — `output_processor.format_error_messages` -/

/-- Python `str.startswith`. -/
def startsWithStr (s pre : String) : Bool :=
  leadsWith pre.data s.data

/-- Fuelled worker for substring split; models Python `str.split(sep)` with a
non-empty separator (non-overlapping, left to right).  Each step consumes at
least one character, so `length + 1` fuel is enough. -/
def splitOnCore (sep : List Char) : Nat → List Char → List Char → List (List Char)
  | 0, cur, l => [cur.reverse ++ l]
  | fuel + 1, cur, l =>
    if sep ≠ [] ∧ leadsWith sep l then
      cur.reverse :: splitOnCore sep fuel [] (l.drop sep.length)
    else
      match l with
      | [] => [cur.reverse]
      | c :: r => splitOnCore sep fuel (c :: cur) r

/-- Python `s.split(sep)` for a non-empty separator substring. -/
def pySplitOn (s sep : String) : List String :=
  (splitOnCore sep.data (s.data.length + 1) [] s.data).map String.mk

/-- Python `"\n".join(entries)`. -/
def joinWithNewline : List String → String
  | [] => ""
  | [x] => x
  | x :: xs => x ++ "\n" ++ joinWithNewline xs

/-- `output_processor.format_error_messages`: drop blank lines and lines
beginning with `WARNING:`; split lines containing `ERROR:` on that marker and
emit one `ERROR: <fragment>` entry per fragment after the first; keep other
lines verbatim; join with newlines, falling back to `"Unknown error"`. -/
def format_error_messages (stderr_lines : List String) : String :=
  if stderr_lines = [] then "Unknown error"
  else
    let formatted := stderr_lines.foldl
      (fun acc l =>
        let line := pyStrip l
        if line ≠ "" ∧ startsWithStr line "WARNING:" = false then
          if containsSub line "ERROR:" then
            acc ++ ((pySplitOn line "ERROR:").drop 1).map
              (fun part => "ERROR: " ++ pyStrip part)
          else acc ++ [line]
        else acc)
      []
    if formatted = [] then "Unknown error" else joinWithNewline formatted

/-- All entries accumulated by `format_error_messages` are non-empty. -/
theorem format_entries_ne_empty (lines : List String) (acc : List String)
    (hacc : ∀ x ∈ acc, x ≠ "") :
    ∀ x ∈ lines.foldl
      (fun acc l =>
        let line := pyStrip l
        if line ≠ "" ∧ startsWithStr line "WARNING:" = false then
          if containsSub line "ERROR:" then
            acc ++ ((pySplitOn line "ERROR:").drop 1).map
              (fun part => "ERROR: " ++ pyStrip part)
          else acc ++ [line]
        else acc)
      acc, x ≠ "" := by
  induction lines generalizing acc with
  | nil => exact hacc
  | cons l ls ih =>
    refine ih _ ?_
    intro x hx
    dsimp only at hx
    split at hx
    · rename_i hline
      split at hx
      · rcases List.mem_append.1 hx with h | h
        · exact hacc x h
        · rcases List.mem_map.1 h with ⟨part, _, hpart⟩
          intro hempty
          have : ("ERROR: " ++ pyStrip part).data = ("" : String).data := by
            rw [hpart, hempty]
          rw [String.data_append] at this
          simp at this
      · rcases List.mem_append.1 hx with h | h
        · exact hacc x h
        · rcases List.mem_singleton.1 h with rfl
          exact hline.1
    · exact hacc x hx

/-- Joining non-empty entries with newlines yields a non-empty string. -/
theorem joinWithNewline_ne_empty (l : List String) (hne : l ≠ [])
    (h : ∀ x ∈ l, x ≠ "") : joinWithNewline l ≠ "" := by
  match l with
  | [x] =>
    exact h x (by simp)
  | x :: y :: xs =>
    show x ++ "\n" ++ joinWithNewline (y :: xs) ≠ ""
    intro hempty
    have : (x ++ "\n" ++ joinWithNewline (y :: xs)).data = ("" : String).data := by
      rw [hempty]
    rw [String.data_append, String.data_append] at this
    simp at this

/-- `format_error_messages` never returns the empty string: it reduces to
`"Unknown error"` when no usable stderr line remains. -/
theorem format_error_messages_ne_empty (stderr_lines : List String) :
    format_error_messages stderr_lines ≠ "" := by
  unfold format_error_messages
  split
  · decide
  · dsimp only
    split
    · decide
    · rename_i hne
      exact joinWithNewline_ne_empty _ hne
        (format_entries_ne_empty stderr_lines [] (by simp))

/-! ## Task scheduler — `download_manager.DownloadManager`

`_download_audiobook` runs one monitoring coroutine per task on a single
cooperative event loop.  The relevant shape of one coroutine:

* admission loop: `while self.active_downloads >= self.max_concurrent_downloads:
  await asyncio.sleep(1)` — the exit check, `active_downloads += 1`,
  `task.status = DOWNLOADING` happen with no suspension point in between, so
  admission is one atomic step of the loop;
* on subprocess exit 0 the task is marked `completed`; on a non-zero exit it is
  marked `failed` with `error = format_error_messages(stderr_lines)`; an
  exception anywhere in the `try` block marks it `failed` with
  `error = str(e)` (which is empty when the exception's message is empty);
* the `finally` block decrements `active_downloads`.

`cancel_task` may flip a `pending` or `downloading` task to `cancelled` at any
point; the coroutine itself is not stopped (a cancelled waiting task is still
admitted later, and a cancelled running task is still overwritten with its
terminal status).  The configuration is fixed for the modelled trace
(`reload_config` is outside the claims' scope).

States are modelled per coroutine: `status`/`error` are the observable task
fields; `phase` is the position of the coroutine (waiting in the admission
loop / holding a slot while downloading / holding a slot after the terminal
status was assigned but before `finally` / released).
-/

inductive DownloadStatus where
  | pending
  | downloading
  | completed
  | failed
  | cancelled
deriving DecidableEq

/-- Position of one task's monitoring coroutine. -/
inductive Phase where
  | waiting
  | running
  | finishing
  | released
deriving DecidableEq

/-- The observable fields of one task plus its coroutine position. -/
structure Proc where
  status : DownloadStatus
  error : Option String
  phase : Phase
deriving DecidableEq

/-- Scheduler state: all coroutines ever spawned, plus `active_downloads`. -/
structure SchedState where
  procs : List Proc
  active : Nat
deriving DecidableEq

/-- `_load_config`: `max(1, min(10, max_concurrent_downloads))`. -/
def clampCeiling (cfg : Int) : Nat := (max 1 (min 10 cfg)).toNat

/-- `_load_config`: `config.get("max_concurrent_downloads", 2)` then clamping. -/
def loadConfigCeiling (cfgVal : Option Int) : Nat := clampCeiling (cfgVal.getD 2)

/-- One atomic step of the event loop, at a fixed concurrency ceiling. -/
inductive SchedStep (ceiling : Nat) : SchedState → SchedState → Prop where
  /-- `add_download`: a new task enters in `pending` and its coroutine starts
  in the admission loop. -/
  | add (procs : List Proc) (a : Nat) :
      SchedStep ceiling ⟨procs, a⟩
        ⟨procs ++ [⟨.pending, none, .waiting⟩], a⟩
  /-- Admission: the `while` loop exits only when
  `active_downloads < max_concurrent_downloads`; then `active_downloads += 1`
  and `task.status = DOWNLOADING` with no suspension point in between. -/
  | admission (l₁ l₂ : List Proc) (p : Proc) (a : Nat)
      (hph : p.phase = .waiting) (hcap : a < ceiling) :
      SchedStep ceiling ⟨l₁ ++ p :: l₂, a⟩
        ⟨l₁ ++ { p with status := .downloading, phase := .running } :: l₂, a + 1⟩
  /-- Subprocess exited with return code 0: `status = COMPLETED`. -/
  | finishOk (l₁ l₂ : List Proc) (p : Proc) (a : Nat) (hph : p.phase = .running) :
      SchedStep ceiling ⟨l₁ ++ p :: l₂, a⟩
        ⟨l₁ ++ { p with status := .completed, phase := .finishing } :: l₂, a⟩
  /-- Subprocess exited non-zero: `status = FAILED`,
  `error = format_error_messages(stderr_lines)`. -/
  | finishFail (l₁ l₂ : List Proc) (p : Proc) (a : Nat) (stderrLines : List String)
      (hph : p.phase = .running) :
      SchedStep ceiling ⟨l₁ ++ p :: l₂, a⟩
        ⟨l₁ ++ { p with status := .failed,
                        error := some (format_error_messages stderrLines),
                        phase := .finishing } :: l₂, a⟩
  /-- Exception during launch or monitoring: `status = FAILED`,
  `error = str(e)` (the exception's message, possibly empty). -/
  | finishExc (l₁ l₂ : List Proc) (p : Proc) (a : Nat) (msg : String)
      (hph : p.phase = .running) :
      SchedStep ceiling ⟨l₁ ++ p :: l₂, a⟩
        ⟨l₁ ++ { p with status := .failed, error := some msg,
                        phase := .finishing } :: l₂, a⟩
  /-- Exception in the success path's post-processing (still inside the `try`
  block, after the terminal status was already assigned): `status = FAILED`,
  `error = str(e)`. -/
  | excAfter (l₁ l₂ : List Proc) (p : Proc) (a : Nat) (msg : String)
      (hph : p.phase = .finishing) :
      SchedStep ceiling ⟨l₁ ++ p :: l₂, a⟩
        ⟨l₁ ++ { p with status := .failed, error := some msg } :: l₂, a⟩
  /-- The `finally` block: `active_downloads -= 1`. -/
  | release (l₁ l₂ : List Proc) (p : Proc) (a : Nat) (hph : p.phase = .finishing) :
      SchedStep ceiling ⟨l₁ ++ p :: l₂, a⟩
        ⟨l₁ ++ { p with phase := .released } :: l₂, a - 1⟩
  /-- `cancel_task` on a `pending` or `downloading` task. -/
  | cancel (l₁ l₂ : List Proc) (p : Proc) (a : Nat)
      (hst : p.status = .pending ∨ p.status = .downloading) :
      SchedStep ceiling ⟨l₁ ++ p :: l₂, a⟩
        ⟨l₁ ++ { p with status := .cancelled } :: l₂, a⟩

/-- States reachable from an empty scheduler (fresh `DownloadManager`). -/
inductive Reaches (ceiling : Nat) : SchedState → Prop where
  | init : Reaches ceiling ⟨[], 0⟩
  | step {s s' : SchedState} : Reaches ceiling s → SchedStep ceiling s s' →
      Reaches ceiling s'

/-- Number of tasks currently in `downloading` status. -/
def countDownloading (procs : List Proc) : Nat :=
  procs.countP (fun p => p.status == .downloading)

/-- Number of coroutines currently holding a concurrency slot (between the
`active_downloads += 1` and the `finally` decrement). -/
def countSlots (procs : List Proc) : Nat :=
  procs.countP (fun p => p.phase == .running || p.phase == .finishing)

/-- The inductive invariant of the scheduler. -/
def SchedInv (ceiling : Nat) (s : SchedState) : Prop :=
  s.active ≤ ceiling ∧
  countSlots s.procs = s.active ∧
  (∀ p ∈ s.procs, p.status = .downloading → p.phase = .running) ∧
  (∀ p ∈ s.procs, p.status = .failed → p.error.isSome)

theorem schedInv_init (ceiling : Nat) : SchedInv ceiling ⟨[], 0⟩ := by
  refine ⟨Nat.zero_le _, rfl, ?_, ?_⟩ <;> intro p hp <;> simp at hp

theorem schedInv_step {ceiling : Nat} {s s' : SchedState}
    (hinv : SchedInv ceiling s) (hstep : SchedStep ceiling s s') :
    SchedInv ceiling s' := by
  obtain ⟨hact, hslots, hdown, hfail⟩ := hinv
  cases hstep with
  | add procs a =>
    refine ⟨hact, ?_, ?_, ?_⟩
    · simpa [countSlots, List.countP_append] using hslots
    · intro p hp
      rcases List.mem_append.1 hp with h | h
      · exact hdown p h
      · rcases List.mem_singleton.1 h with rfl; intro h; cases h
    · intro p hp
      rcases List.mem_append.1 hp with h | h
      · exact hfail p h
      · rcases List.mem_singleton.1 h with rfl; intro h; cases h
  | admission l₁ l₂ p a hph hcap =>
    refine ⟨hcap, ?_, ?_, ?_⟩
    · simp only [countSlots, List.countP_append, List.countP_cons] at hslots ⊢
      simp only [countSlots, hph] at hslots ⊢
      simp at hslots ⊢
      omega
    · intro q hq
      rcases List.mem_append.1 hq with h | h
      · exact hdown q (List.mem_append.2 (Or.inl h))
      · rcases List.mem_cons.1 h with rfl | h
        · intro _; rfl
        · exact hdown q (by simp [h])
    · intro q hq
      rcases List.mem_append.1 hq with h | h
      · exact hfail q (List.mem_append.2 (Or.inl h))
      · rcases List.mem_cons.1 h with rfl | h
        · intro h'; cases h'
        · exact hfail q (by simp [h])
  | finishOk l₁ l₂ p a hph =>
    refine ⟨hact, ?_, ?_, ?_⟩
    · simp only [countSlots, List.countP_append, List.countP_cons, hph] at hslots ⊢
      simp at hslots ⊢
      omega
    · intro q hq
      rcases List.mem_append.1 hq with h | h
      · exact hdown q (List.mem_append.2 (Or.inl h))
      · rcases List.mem_cons.1 h with rfl | h
        · intro h'; cases h'
        · exact hdown q (by simp [h])
    · intro q hq
      rcases List.mem_append.1 hq with h | h
      · exact hfail q (List.mem_append.2 (Or.inl h))
      · rcases List.mem_cons.1 h with rfl | h
        · intro h'; cases h'
        · exact hfail q (by simp [h])
  | finishFail l₁ l₂ p a stderrLines hph =>
    refine ⟨hact, ?_, ?_, ?_⟩
    · simp only [countSlots, List.countP_append, List.countP_cons, hph] at hslots ⊢
      simp at hslots ⊢
      omega
    · intro q hq
      rcases List.mem_append.1 hq with h | h
      · exact hdown q (List.mem_append.2 (Or.inl h))
      · rcases List.mem_cons.1 h with rfl | h
        · intro h'; cases h'
        · exact hdown q (by simp [h])
    · intro q hq
      rcases List.mem_append.1 hq with h | h
      · exact hfail q (List.mem_append.2 (Or.inl h))
      · rcases List.mem_cons.1 h with rfl | h
        · intro _; rfl
        · exact hfail q (by simp [h])
  | finishExc l₁ l₂ p a msg hph =>
    refine ⟨hact, ?_, ?_, ?_⟩
    · simp only [countSlots, List.countP_append, List.countP_cons, hph] at hslots ⊢
      simp at hslots ⊢
      omega
    · intro q hq
      rcases List.mem_append.1 hq with h | h
      · exact hdown q (List.mem_append.2 (Or.inl h))
      · rcases List.mem_cons.1 h with rfl | h
        · intro h'; cases h'
        · exact hdown q (by simp [h])
    · intro q hq
      rcases List.mem_append.1 hq with h | h
      · exact hfail q (List.mem_append.2 (Or.inl h))
      · rcases List.mem_cons.1 h with rfl | h
        · intro _; rfl
        · exact hfail q (by simp [h])
  | excAfter l₁ l₂ p a msg hph =>
    refine ⟨hact, ?_, ?_, ?_⟩
    · simp only [countSlots, List.countP_append, List.countP_cons, hph] at hslots ⊢
      simp at hslots ⊢
      omega
    · intro q hq
      rcases List.mem_append.1 hq with h | h
      · exact hdown q (List.mem_append.2 (Or.inl h))
      · rcases List.mem_cons.1 h with rfl | h
        · intro h'; cases h'
        · exact hdown q (by simp [h])
    · intro q hq
      rcases List.mem_append.1 hq with h | h
      · exact hfail q (List.mem_append.2 (Or.inl h))
      · rcases List.mem_cons.1 h with rfl | h
        · intro _; rfl
        · exact hfail q (by simp [h])
  | release l₁ l₂ p a hph =>
    have hact' : a ≤ ceiling := hact
    refine ⟨show a - 1 ≤ ceiling by omega, ?_, ?_, ?_⟩
    · simp only [countSlots, List.countP_append, List.countP_cons, hph] at hslots ⊢
      simp at hslots ⊢
      omega
    · intro q hq
      rcases List.mem_append.1 hq with h | h
      · exact hdown q (List.mem_append.2 (Or.inl h))
      · rcases List.mem_cons.1 h with rfl | h
        · intro h'
          have := hdown p (by simp) h'
          rw [hph] at this; cases this
        · exact hdown q (by simp [h])
    · intro q hq
      rcases List.mem_append.1 hq with h | h
      · exact hfail q (List.mem_append.2 (Or.inl h))
      · rcases List.mem_cons.1 h with rfl | h
        · exact hfail p (by simp)
        · exact hfail q (by simp [h])
  | cancel l₁ l₂ p a hst =>
    refine ⟨hact, ?_, ?_, ?_⟩
    · simpa [countSlots, List.countP_append, List.countP_cons] using hslots
    · intro q hq
      rcases List.mem_append.1 hq with h | h
      · exact hdown q (List.mem_append.2 (Or.inl h))
      · rcases List.mem_cons.1 h with rfl | h
        · intro h'; cases h'
        · exact hdown q (by simp [h])
    · intro q hq
      rcases List.mem_append.1 hq with h | h
      · exact hfail q (List.mem_append.2 (Or.inl h))
      · rcases List.mem_cons.1 h with rfl | h
        · intro h'; cases h'
        · exact hfail q (by simp [h])

theorem schedInv_reaches {ceiling : Nat} {s : SchedState}
    (h : Reaches ceiling s) : SchedInv ceiling s := by
  induction h with
  | init => exact schedInv_init ceiling
  | step _ hstep ih => exact schedInv_step ih hstep

/-- Every task in `downloading` status holds a slot. -/
theorem countDownloading_le_countSlots (procs : List Proc)
    (h : ∀ p ∈ procs, p.status = .downloading → p.phase = .running) :
    countDownloading procs ≤ countSlots procs := by
  induction procs with
  | nil => exact Nat.le_refl 0
  | cons p rest ih =>
    have hrest := ih (fun q hq => h q (by simp [hq]))
    simp only [countDownloading, countSlots, List.countP_cons] at hrest ⊢
    have : (p.status == DownloadStatus.downloading) = true →
        (p.phase == Phase.running || p.phase == Phase.finishing) = true := by
      intro hd
      have := h p (by simp) (by simpa using hd)
      simp [this]
    split <;> rename_i hd
    · simp [this hd]
      omega
    · omega

/-! ### Claims C1 and C8 -/

/-- C1: at every point of the scheduler's execution, the number of tasks
simultaneously in `downloading` status never exceeds the configured
concurrency ceiling `max_concurrent_downloads`, clamped to the range 1–10,
with default 2 when the key is absent.  (A task beyond the ceiling stays in
the admission loop — the `admission` step of `SchedStep` fires only when
`active_downloads` is below the ceiling.) -/
theorem claim_C1_concurrency_ceiling (cfg : Option Int) (s : SchedState)
    (h : Reaches (loadConfigCeiling cfg) s) :
    countDownloading s.procs ≤ loadConfigCeiling cfg ∧
      1 ≤ loadConfigCeiling cfg ∧ loadConfigCeiling cfg ≤ 10 ∧
      loadConfigCeiling none = 2 := by
  obtain ⟨hact, hslots, hdown, _⟩ := schedInv_reaches h
  refine ⟨?_, ?_, ?_, rfl⟩
  · calc countDownloading s.procs
        ≤ countSlots s.procs := countDownloading_le_countSlots _ hdown
      _ = s.active := hslots
      _ ≤ _ := hact
  · cases cfg <;> simp [loadConfigCeiling, clampCeiling]
  · cases cfg <;> simp [loadConfigCeiling, clampCeiling]

/-- Witness for C1: two tasks added and one admitted under the default
ceiling of 2; one task is downloading, one still pending. -/
theorem claim_C1_concurrency_ceiling_witness :
    countDownloading
        [⟨.downloading, none, .running⟩, ⟨.pending, none, .waiting⟩] ≤
      loadConfigCeiling none ∧
      1 ≤ loadConfigCeiling none ∧ loadConfigCeiling none ≤ 10 ∧
      loadConfigCeiling none = 2 :=
  claim_C1_concurrency_ceiling none
    ⟨[⟨.downloading, none, .running⟩, ⟨.pending, none, .waiting⟩], 1⟩
    (Reaches.step
      (Reaches.step
        (Reaches.step Reaches.init (.add [] 0))
        (.add [⟨.pending, none, .waiting⟩] 0))
      (.admission [] [⟨.pending, none, .waiting⟩] ⟨.pending, none, .waiting⟩ 0
        rfl (by decide)))

/-- C8 counterexample: the exception path stores the exception's message
verbatim (`task.error = str(e)`), so an exception whose message is the empty
string (e.g. a bare `Exception()`) yields a reachable `failed` task whose
error field is set but *empty* — contradicting "has a non-empty error
field". -/
theorem claim_C8_counterexample :
    Reaches (loadConfigCeiling none) ⟨[⟨.failed, some "", .finishing⟩], 1⟩ ∧
      (Proc.mk .failed (some "") .finishing).status = .failed ∧
      (Proc.mk .failed (some "") .finishing).error = some "" ∧
      String.length "" = 0 :=
  ⟨Reaches.step
      (Reaches.step
        (Reaches.step Reaches.init (.add [] 0))
        (.admission [] [] ⟨.pending, none, .waiting⟩ 0 rfl (by decide)))
      (.finishExc [] [] ⟨.downloading, none, .running⟩ 1 "" rfl),
    rfl, rfl, rfl⟩

/-- C8 amended: every task that reaches `failed` status has its error field
*set* (non-null): the formatted error-stream summary for a non-zero exit —
which is never the empty string, reducing to `"Unknown error"` when no usable
stderr line remains — or the exception's message, which the code stores
verbatim even when it is empty. -/
theorem claim_C8_failed_error_amended (ceiling : Nat) (s : SchedState)
    (h : Reaches ceiling s) :
    (∀ p ∈ s.procs, p.status = .failed → p.error.isSome) ∧
      (∀ ls : List String, format_error_messages ls ≠ "") :=
  ⟨(schedInv_reaches h).2.2.2, format_error_messages_ne_empty⟩

/-- Witness for the amended C8: a task failed by a non-zero exit with empty
captured stderr carries `format_error_messages [] = "Unknown error"`. -/
theorem claim_C8_failed_error_amended_witness :
    (∀ p ∈ [Proc.mk .failed (some (format_error_messages [])) .finishing],
        p.status = .failed → p.error.isSome) ∧
      (∀ ls : List String, format_error_messages ls ≠ "") :=
  claim_C8_failed_error_amended (loadConfigCeiling none)
    ⟨[⟨.failed, some (format_error_messages []), .finishing⟩], 1⟩
    (Reaches.step
      (Reaches.step
        (Reaches.step Reaches.init (.add [] 0))
        (.admission [] [] ⟨.pending, none, .waiting⟩ 0 rfl (by decide)))
      (.finishFail [] [] ⟨.downloading, none, .running⟩ 1 [] rfl))

/-! ## Task registry — `DownloadManager.add_download`

`add_download` creates a fresh `DownloadTask(url, task_id)` and executes
`self.tasks[task_id] = task` unconditionally (Python `dict` assignment:
replace the value in place if the key exists, append otherwise), then spawns
the monitoring coroutine (modelled by `SchedStep.add` above) and returns the
task.  The registry is modelled as an association list with unique keys, the
invariant Python dictionaries maintain.
-/

/-- The registry-visible fields initialised by `DownloadTask.__init__`
(timestamps are `None`-initialised and modelled as optional instants). -/
structure RegTask where
  url : String
  task_id : String
  status : DownloadStatus
  progress : Nat
  message : String
  started_at : Option Nat
  completed_at : Option Nat
  error : Option String
  output_file : Option String
deriving DecidableEq

/-- `DownloadTask.__init__`. -/
def mkDownloadTask (url task_id : String) : RegTask :=
  { url := url, task_id := task_id, status := .pending, progress := 0,
    message := "Waiting to start...", started_at := none, completed_at := none,
    error := none, output_file := none }

/-- The `self.tasks` mapping. -/
abbrev Registry : Type := List (String × RegTask)

/-- Python `dict` lookup (`self.tasks.get(task_id)`). -/
def dictGet : Registry → String → Option RegTask
  | [], _ => none
  | (k', v) :: rest, k => if k' = k then some v else dictGet rest k

/-- Python `dict` assignment `self.tasks[task_id] = task`: replace in place
if the key exists, append otherwise. -/
def dictSet : Registry → String → RegTask → Registry
  | [], k, v => [(k, v)]
  | (k', v') :: rest, k, v =>
    if k' = k then (k, v) :: rest else (k', v') :: dictSet rest k v

/-- The keys of a registry. -/
def regKeys (reg : Registry) : List String := reg.map Prod.fst

/-- `add_download(url, task_id)` (registry effect and return value; the
spawned coroutine is modelled by `SchedStep.add`). -/
def add_download (reg : Registry) (url task_id : String) : RegTask × Registry :=
  let task := mkDownloadTask url task_id
  (task, dictSet reg task_id task)

theorem dictGet_dictSet (reg : Registry) (k : String) (v : RegTask) :
    dictGet (dictSet reg k v) k = some v := by
  induction reg with
  | nil => simp [dictSet, dictGet]
  | cons kv rest ih =>
    obtain ⟨k', v'⟩ := kv
    by_cases h : k' = k <;> simp [dictSet, dictGet, h, ih]

theorem dictSet_mem (reg : Registry) (k : String) (v : RegTask)
    (hnodup : (regKeys reg).Nodup) :
    ∀ w, (k, w) ∈ dictSet reg k v → w = v := by
  induction reg with
  | nil => intro w hw; simpa [dictSet] using hw
  | cons kv rest ih =>
    obtain ⟨k', v'⟩ := kv
    simp only [regKeys, List.map_cons, List.nodup_cons] at hnodup
    intro w hw
    by_cases h : k' = k
    · subst h
      simp only [dictSet, if_pos rfl] at hw
      rcases List.mem_cons.1 hw with hw | hw
      · injection hw with _ h2
      · exact absurd (List.mem_map.2 ⟨(k', w), hw, rfl⟩) hnodup.1
    · simp only [dictSet, if_neg h] at hw
      rcases List.mem_cons.1 hw with hw | hw
      · injection hw with h1 _
        exact absurd h1.symm h
      · exact ih hnodup.2 w hw

/-! ### Claim C10 -/

/-- C10: after `add_download(url, task_id)` the registry maps `task_id` to
the freshly created task, which is in `pending` status and is returned; any
previously registered task under the same identifier — whatever its status —
is silently replaced and its record is lost (`add_download` is total: it
never fails or rejects a duplicate identifier). -/
theorem claim_C10_add_download_replaces (reg : Registry) (url task_id : String)
    (hnodup : (regKeys reg).Nodup) :
    (add_download reg url task_id).1 = mkDownloadTask url task_id ∧
      (mkDownloadTask url task_id).status = .pending ∧
      dictGet (add_download reg url task_id).2 task_id =
        some (mkDownloadTask url task_id) ∧
      (∀ w, (task_id, w) ∈ (add_download reg url task_id).2 →
        w = mkDownloadTask url task_id) :=
  ⟨rfl, rfl, dictGet_dictSet reg task_id _,
    dictSet_mem reg task_id _ hnodup⟩

/-- Witness for C10: replacing a still-`downloading` task registered under
the same identifier. -/
theorem claim_C10_add_download_replaces_witness :
    (add_download
        [("t1", { mkDownloadTask "http://old" "t1" with status := .downloading })]
        "http://new" "t1").1 = mkDownloadTask "http://new" "t1" ∧
      (mkDownloadTask "http://new" "t1").status = .pending ∧
      dictGet (add_download
          [("t1", { mkDownloadTask "http://old" "t1" with status := .downloading })]
          "http://new" "t1").2 "t1" = some (mkDownloadTask "http://new" "t1") ∧
      (∀ w, ("t1", w) ∈ (add_download
          [("t1", { mkDownloadTask "http://old" "t1" with status := .downloading })]
          "http://new" "t1").2 → w = mkDownloadTask "http://new" "t1") :=
  claim_C10_add_download_replaces
    [("t1", { mkDownloadTask "http://old" "t1" with status := .downloading })]
    "http://new" "t1" (by simp [regKeys])

/-! ## Metadata probe adapter — `output_processor.extract_audio_metadata`

`extract_audio_metadata` runs `ffprobe -print_format json -show_format` on
the file and post-processes its output:

* `FileNotFoundError` (probe tool missing) → `None`;
* non-zero return code or empty stdout → falls through → `None`;
* `json.loads` failure (unparseable output) → caught → `None`;
* parsed JSON without a `"format"` key → falls through → `None`;
* otherwise a `metadata` dict is assembled from the format section: the tag
  fields are included only when present *and truthy* (Python `if title:` is
  false for the empty string), duration/size only when present; an empty dict
  collapses to `None` (`return metadata if metadata else None`).

The probe outcome is modelled as a small ADT; `duration` is a float in the
source and is modelled here for integral second counts (`hours =
int(duration_sec // 3600)`, `minutes = int((duration_sec % 3600) // 60)` agree
with Nat division there); the `.1f`/`.2f` float formatting of
`format_file_size` is modelled with exact rounding on tenths/hundredths.
-/

/-- The `"format"` section of a parsed probe output. -/
structure ProbeFormat where
  tags : List (String × String)
  duration : Option Nat
  size : Option Nat

/-- Outcome of running the probe subprocess, as distinguished by the code. -/
inductive ProbeResult where
  /-- `FileNotFoundError`: the `ffprobe` tool is not installed. -/
  | toolMissing
  /-- Non-zero return code (or empty stdout). -/
  | nonzeroExit
  /-- `json.loads` raised: unparseable output. -/
  | unparseable
  /-- Parsed JSON; `some fmt` iff a `"format"` section is present. -/
  | parsed (fmt : Option ProbeFormat)

/-- Python dict lookup on a tags mapping (`key in tags` / `tags[key]`). -/
def lookupTag : List (String × String) → String → Option String
  | [], _ => none
  | (k, v) :: rest, key => if k = key then some v else lookupTag rest key

/-- `output_processor.get_tag_with_fallback`. -/
def get_tag_with_fallback (tags : List (String × String)) (primary : String)
    (secondary : Option String) : Option String :=
  match lookupTag tags primary with
  | some v => some v
  | none =>
    match secondary with
    | some s => lookupTag tags s
    | none => none

/-- One decimal digit, rounding half away from zero on the exact ratio
`n / d` (models Python `f"{n / d:.1f}"`). -/
def fmtOneDecimal (n d : Nat) : String :=
  let t := (n * 10 + d / 2) / d
  Nat.repr (t / 10) ++ "." ++ Nat.repr (t % 10)

/-- Two decimal digits, rounding half away from zero on the exact ratio
`n / d` (models Python `f"{n / d:.2f}"`). -/
def fmtTwoDecimals (n d : Nat) : String :=
  let t := (n * 100 + d / 2) / d
  Nat.repr (t / 100) ++ "." ++ Nat.repr (t % 100 / 10) ++ Nat.repr (t % 10)

/-- `output_processor.format_file_size`. -/
def format_file_size (size_bytes : Nat) : String :=
  if size_bytes < 1024 then Nat.repr size_bytes ++ " B"
  else if size_bytes < 1024 * 1024 then fmtOneDecimal size_bytes 1024 ++ " KB"
  else if size_bytes < 1024 * 1024 * 1024 then
    fmtOneDecimal size_bytes (1024 * 1024) ++ " MB"
  else fmtTwoDecimals size_bytes (1024 * 1024 * 1024) ++ " GB"

/-- The duration formatting of `extract_audio_metadata`:
`f"{hours}h {minutes}m"`. -/
def formatDuration (duration_sec : Nat) : String :=
  Nat.repr (duration_sec / 3600) ++ "h " ++ Nat.repr (duration_sec % 3600 / 60) ++ "m"

/-- `output_processor.extract_audio_metadata` (post-processing of the probe
outcome; the metadata record is an insertion-ordered dict). -/
def extract_audio_metadata : ProbeResult → Option (List (String × String))
  | .toolMissing => none
  | .nonzeroExit => none
  | .unparseable => none
  | .parsed none => none
  | .parsed (some fmt) =>
    let md : List (String × String) := []
    let md := match lookupTag fmt.tags "title" with
      | some t => if t ≠ "" then md ++ [("title", t)] else md
      | none => md
    let md := match get_tag_with_fallback fmt.tags "artist" (some "album_artist") with
      | some a => if a ≠ "" then md ++ [("author", a)] else md
      | none => md
    let md := match get_tag_with_fallback fmt.tags "composer" (some "PERFORMER") with
      | some n => if n ≠ "" then md ++ [("narrator", n)] else md
      | none => md
    let md := match get_tag_with_fallback fmt.tags "date" (some "year") with
      | some y => if y ≠ "" then md ++ [("year", y)] else md
      | none => md
    let md := match fmt.duration with
      | some d => md ++ [("duration", formatDuration d)]
      | none => md
    let md := match fmt.size with
      | some s => md ++ [("size", format_file_size s)]
      | none => md
    if md = [] then none else some md

/-! ### Claim C9 -/

/-- C9: the metadata probe adapter returns no record when the probe tool is
missing, exits non-zero, emits unparseable output, or emits output without a
`format` section or with no extractable field at all; when the tag fields are
all absent or falsy and only format-level duration and/or size are present,
it returns a record containing exactly those fields; and it never returns an
empty record. -/
theorem claim_C9_metadata_collapse :
    (extract_audio_metadata .toolMissing = none ∧
      extract_audio_metadata .nonzeroExit = none ∧
      extract_audio_metadata .unparseable = none ∧
      extract_audio_metadata (.parsed none) = none) ∧
    (∀ tags d s,
      (lookupTag tags "title").getD "" = "" →
      (get_tag_with_fallback tags "artist" (some "album_artist")).getD "" = "" →
      (get_tag_with_fallback tags "composer" (some "PERFORMER")).getD "" = "" →
      (get_tag_with_fallback tags "date" (some "year")).getD "" = "" →
      extract_audio_metadata (.parsed (some ⟨tags, d, s⟩)) =
        (match d, s with
          | none, none => none
          | some d', none => some [("duration", formatDuration d')]
          | none, some s' => some [("size", format_file_size s')]
          | some d', some s' =>
            some [("duration", formatDuration d'), ("size", format_file_size s')])) ∧
    (∀ r : ProbeResult, extract_audio_metadata r ≠ some []) := by
  refine ⟨⟨rfl, rfl, rfl, rfl⟩, ?_, ?_⟩
  · intro tags d s htitle hauthor hnarrator hyear
    unfold extract_audio_metadata
    dsimp only
    rcases h1 : lookupTag tags "title" with _ | t
    · rcases h2 : get_tag_with_fallback tags "artist" (some "album_artist") with _ | a
      · rcases h3 : get_tag_with_fallback tags "composer" (some "PERFORMER") with _ | n
        · rcases h4 : get_tag_with_fallback tags "date" (some "year") with _ | y
          · cases d <;> cases s <;> simp
          · have : y = "" := by simpa [h4] using hyear
            subst this
            cases d <;> cases s <;> simp
        · have : n = "" := by simpa [h3] using hnarrator
          subst this
          rcases h4 : get_tag_with_fallback tags "date" (some "year") with _ | y
          · cases d <;> cases s <;> simp
          · have : y = "" := by simpa [h4] using hyear
            subst this
            cases d <;> cases s <;> simp
      · have : a = "" := by simpa [h2] using hauthor
        subst this
        rcases h3 : get_tag_with_fallback tags "composer" (some "PERFORMER") with _ | n
        · rcases h4 : get_tag_with_fallback tags "date" (some "year") with _ | y
          · cases d <;> cases s <;> simp
          · have : y = "" := by simpa [h4] using hyear
            subst this
            cases d <;> cases s <;> simp
        · have : n = "" := by simpa [h3] using hnarrator
          subst this
          rcases h4 : get_tag_with_fallback tags "date" (some "year") with _ | y
          · cases d <;> cases s <;> simp
          · have : y = "" := by simpa [h4] using hyear
            subst this
            cases d <;> cases s <;> simp
    · have : t = "" := by simpa [h1] using htitle
      subst this
      rcases h2 : get_tag_with_fallback tags "artist" (some "album_artist") with _ | a
      · rcases h3 : get_tag_with_fallback tags "composer" (some "PERFORMER") with _ | n
        · rcases h4 : get_tag_with_fallback tags "date" (some "year") with _ | y
          · cases d <;> cases s <;> simp
          · have : y = "" := by simpa [h4] using hyear
            subst this
            cases d <;> cases s <;> simp
        · have : n = "" := by simpa [h3] using hnarrator
          subst this
          rcases h4 : get_tag_with_fallback tags "date" (some "year") with _ | y
          · cases d <;> cases s <;> simp
          · have : y = "" := by simpa [h4] using hyear
            subst this
            cases d <;> cases s <;> simp
      · have : a = "" := by simpa [h2] using hauthor
        subst this
        rcases h3 : get_tag_with_fallback tags "composer" (some "PERFORMER") with _ | n
        · rcases h4 : get_tag_with_fallback tags "date" (some "year") with _ | y
          · cases d <;> cases s <;> simp
          · have : y = "" := by simpa [h4] using hyear
            subst this
            cases d <;> cases s <;> simp
        · have : n = "" := by simpa [h3] using hnarrator
          subst this
          rcases h4 : get_tag_with_fallback tags "date" (some "year") with _ | y
          · cases d <;> cases s <;> simp
          · have : y = "" := by simpa [h4] using hyear
            subst this
            cases d <;> cases s <;> simp
  · intro r
    cases r with
    | toolMissing => simp [extract_audio_metadata]
    | nonzeroExit => simp [extract_audio_metadata]
    | unparseable => simp [extract_audio_metadata]
    | parsed fmt =>
      cases fmt with
      | none => simp [extract_audio_metadata]
      | some f =>
        unfold extract_audio_metadata
        dsimp only
        intro hcontra
        split at hcontra
        · cases hcontra
        · rename_i hne
          exact hne (by injection hcontra)

/-- Witness for C9: a probe result with an empty-string artist tag and
format-level duration 3661 s / size 1 MiB yields exactly the duration and
size fields (matching the repository's own test expectation
`{"duration": "1h 1m", "size": "1.0 MB"}`). -/
theorem claim_C9_metadata_collapse_witness :
    extract_audio_metadata
        (.parsed (some ⟨[("artist", "")], some 3661, some 1048576⟩)) =
      some [("duration", "1h 1m"), ("size", "1.0 MB")] := by
  have h := claim_C9_metadata_collapse.2.1 [("artist", "")]
    (some 3661) (some 1048576) rfl rfl rfl rfl
  rw [h]
  rfl

/-! ## Output path resolver — `output_processor.find_output_file_in_lines`

The resolver scans the captured lines in reverse (most recent first).  For
each line it first collects candidates announced after one of the
`SAVE_KEYWORDS`; when nothing has been collected so far, it falls back to
extracting bare path tokens containing an audio extension with three regular
expressions (Windows-drive, Unix-absolute, relative — tried in that order,
first pattern that matches anywhere wins, at most one candidate per
extension).  Finally it returns the first collected candidate whose resolved
path exists on disk, as a path relative to the downloads root — and `None`
when no candidate exists on disk.

The filesystem is modelled as an oracle `fs : String → Bool`
(`full_path.exists()`); paths are strings, POSIX rules (`is_absolute` =
leading slash, `/` as the join separator; the downloads root is a resolved
path without a trailing slash).
-/

def AUDIO_EXTENSIONS : List String := [".m4b", ".mp3", ".m4a"]

def SAVE_KEYWORDS : List String :=
  ["saved to", "written to", "output:", "saved:", "file:", "downloading to",
   "writing", "created", "merged to", "combined to"]

/-- `output_processor.normalize_path`: `str(path).replace("\\", "/")`. -/
def normalize_path (p : String) : String :=
  String.mk (p.data.map (fun c => if c = '\\' then '/' else c))

/-- `output_processor.make_relative_path`. -/
def make_relative_path (file_path base_dir : String) : String :=
  let f := normalize_path file_path
  let b := normalize_path base_dir
  if startsWithStr f b then pyLstripSet ['/'] (strDrop f b.length)
  else if startsWithStr f "/app/downloads/" then strDrop f "/app/downloads/".length
  else f

/-- Segment characters of the Windows-drive and relative patterns: any
character except backslash, slash, whitespace, and one of the literal
characters less-than, greater-than, colon, double quote, pipe, question mark,
star. -/
def winSegChar (c : Char) : Bool :=
  !(c = '\\' || c = '/' || c = '<' || c = '>' || c = ':' || c = '"' ||
    c = '|' || c = '?' || c = '*' || isPySpace c)

/-- Segment characters of the Unix-absolute pattern: as above but colon and
backslash are allowed and only the forward slash separates. -/
def unixSegChar (c : Char) : Bool :=
  !(c = '/' || c = '<' || c = '>' || c = '"' || c = '|' || c = '?' ||
    c = '*' || isPySpace c)

/-- Separators of the Windows-drive and relative patterns. -/
def winSepChar (c : Char) : Bool := c = '\\' || c = '/'

/-- Separator of the Unix-absolute pattern. -/
def unixSepChar (c : Char) : Bool := c = '/'

/-- Case-insensitive suffix test (the patterns are compiled with
`re.IGNORECASE`). -/
def endsWithCi (l suffix : List Char) : Bool :=
  leadsWith (suffix.map Char.toLower).reverse (l.map Char.toLower).reverse

/-- Shape check for a token of the form "non-empty segment-character runs
separated by single separators": no leading separator, no two adjacent
separators, no trailing separator. -/
def segShapeAux (isW isS : Char → Bool) : Bool → List Char → Bool
  | prevSep, [] => !prevSep
  | prevSep, c :: rest =>
    if isW c then segShapeAux isW isS false rest
    else if isS c then (if prevSep then false else segShapeAux isW isS true rest)
    else false

/-- Match, at the current position, the regex body
`(?:SEG+SEP)*SEG+<ext>` (greedy): the longest prefix of the maximal
segment-or-separator run that is shape-valid, ends (case-insensitively) with
the extension, and has a segment character immediately before the extension
(the final `SEG+` is non-empty). -/
def matchShapeAt (isW isS : Char → Bool) (ext : List Char) (l : List Char) :
    Option (List Char) :=
  let token := l.takeWhile (fun c => isW c || isS c)
  ((List.range (token.length + 1)).reverse.find? (fun m =>
      decide (ext.length + 1 ≤ m) && endsWithCi (token.take m) ext &&
      segShapeAux isW isS true (token.take m) &&
      isW (token.getD (m - ext.length - 1) '/'))).map token.take

/-- The relative-path pattern (third regex in the source). -/
def matchRelAt (ext : List Char) (l : List Char) : Option (List Char) :=
  matchShapeAt winSegChar winSepChar ext l

/-- The Unix-absolute pattern (second regex): a leading slash then the body. -/
def matchUnixAt (ext : List Char) : List Char → Option (List Char)
  | '/' :: rest => (matchShapeAt unixSegChar unixSepChar ext rest).map ('/' :: ·)
  | _ => none

/-- The Windows-drive pattern (first regex): drive letter, colon, separator,
then the body. -/
def matchWinAt (ext : List Char) : List Char → Option (List Char)
  | a :: b :: c :: rest =>
    if a.isAlpha && b = ':' && winSepChar c then
      (matchShapeAt winSegChar winSepChar ext rest).map (fun m => a :: b :: c :: m)
    else none
  | _ => none

/-- `re.search`: try the position-anchored matcher at each position, left to
right, returning the leftmost match. -/
def searchPattern (matchAt : List Char → Option (List Char)) :
    List Char → Option (List Char)
  | [] => none
  | l@(_ :: rest) =>
    match matchAt l with
    | some m => some m
    | none => searchPattern matchAt rest

/-- The fallback extraction of `find_output_file_in_lines` for one audio
extension: try the Windows-drive, Unix-absolute and relative patterns in that
order; on the first match, strip surrounding quotes and make the path
relative to the downloads root. -/
def extractByPatterns (downloadsDir : String) (lineClean : String)
    (ext : String) : Option String :=
  let finish := fun (m : List Char) =>
    make_relative_path (pyStripSet ['"', '\x27'] (String.mk m)) downloadsDir
  match searchPattern (matchWinAt ext.data) lineClean.data with
  | some m => some (finish m)
  | none =>
    match searchPattern (matchUnixAt ext.data) lineClean.data with
    | some m => some (finish m)
    | none =>
      match searchPattern (matchRelAt ext.data) lineClean.data with
      | some m => some (finish m)
      | none => none

/-- The keyword-cue extraction of `find_output_file_in_lines` for one line:
for each save keyword occurring in the lower-cased line, take everything
after its first occurrence, `lstrip(" \t:-")`, `strip()`, strip quotes, and
keep it when it ends with an audio extension. -/
def keywordCandidates (downloadsDir : String) (lineClean lower : String) :
    List String :=
  SAVE_KEYWORDS.foldl
    (fun acc kw =>
      match firstIndexOfSub kw.data lower.data with
      | some idx =>
        let potential := pyStripSet ['\x27', '"']
          (pyStrip (pyLstripSet [' ', '\t', ':', '-']
            (strDrop lineClean (idx + kw.length))))
        if AUDIO_EXTENSIONS.any (fun ext => endsWithStr (strLower potential) ext) then
          acc ++ [make_relative_path potential downloadsDir]
        else acc
      | none => acc)
    []

/-- The collection loop of `find_output_file_in_lines` over the (already
reversed) lines, threading the global `found_paths` accumulator: keyword
candidates always, the pattern fallback only while nothing has been found. -/
def collectFoundPaths (downloadsDir : String) :
    List String → List String → List String
  | found, [] => found
  | found, line :: rest =>
    let lineClean := strip_ansi_codes line
    let lower := strLower lineClean
    let found1 := found ++ keywordCandidates downloadsDir lineClean lower
    let found2 :=
      if found1 = [] ∧ AUDIO_EXTENSIONS.any (fun ext => containsSub lower ext) then
        AUDIO_EXTENSIONS.foldl
          (fun acc ext =>
            if containsSub lower ext then
              match extractByPatterns downloadsDir lineClean ext with
              | some p => acc ++ [p]
              | none => acc
            else acc)
          found1
      else found1
    collectFoundPaths downloadsDir found2 rest

/-- All candidates collected from the output lines, most recent line first. -/
def found_paths_of (downloadsDir : String) (output_lines : List String) :
    List String :=
  collectFoundPaths downloadsDir [] output_lines.reverse

/-- `Path(potential_path).is_absolute()` (POSIX). -/
def isAbsolutePath (p : String) : Bool := startsWithStr p "/"

/-- `downloads_dir / potential_path` when relative, `Path(potential_path)`
when absolute. -/
def fullPathOf (downloadsDir p : String) : String :=
  if isAbsolutePath p then p else downloadsDir ++ "/" ++ p

/-- The final selection loop of `find_output_file_in_lines`: return the first
candidate whose resolved path exists on disk, relativised. -/
def pickExisting (fs : String → Bool) (downloadsDir : String) :
    List String → Option String
  | [] => none
  | p :: rest =>
    if fs (fullPathOf downloadsDir p) then
      some (make_relative_path (fullPathOf downloadsDir p) downloadsDir)
    else pickExisting fs downloadsDir rest

/-- `output_processor.find_output_file_in_lines`, with the disk modelled by
the oracle `fs`. -/
def find_output_file_in_lines (fs : String → Bool) (output_lines : List String)
    (downloadsDir : String) : Option String :=
  pickExisting fs downloadsDir (found_paths_of downloadsDir output_lines)

/-- The selection loop returns exactly the first existing candidate. -/
theorem pickExisting_spec (fs : String → Bool) (downloadsDir : String) :
    ∀ (l : List String) (rel : String), pickExisting fs downloadsDir l = some rel →
      ∃ pre cand post,
        l = pre ++ cand :: post ∧
        (∀ c ∈ pre, fs (fullPathOf downloadsDir c) = false) ∧
        fs (fullPathOf downloadsDir cand) = true ∧
        rel = make_relative_path (fullPathOf downloadsDir cand) downloadsDir := by
  intro l
  induction l with
  | nil => intro rel h; cases h
  | cons p rest ih =>
    intro rel h
    unfold pickExisting at h
    split at h
    · rename_i hfs
      refine ⟨[], p, rest, rfl, by simp, hfs, ?_⟩
      cases h; rfl
    · rename_i hfs
      obtain ⟨pre, cand, post, hl, hpre, hcand, hrel⟩ := ih rel h
      exact ⟨p :: pre, cand, post, by rw [hl]; rfl,
        fun c hc => by
          rcases List.mem_cons.1 hc with rfl | hc
          · simpa using hfs
          · exact hpre c hc,
        hcand, hrel⟩

/-! ### Claim C4 -/

/-- C4: whenever the output-path resolver returns a path, that path is the
relativised form of the first candidate — in most-recent-line-first
collection order — whose resolved absolute form exists on disk; all earlier
candidates do not exist, and a parsed candidate whose file does not exist is
never returned (and when the resolver returns `none`, no path is returned at
all). -/
theorem claim_C4_resolver_existence (fs : String → Bool)
    (downloadsDir : String) (output_lines : List String) (rel : String)
    (h : find_output_file_in_lines fs output_lines downloadsDir = some rel) :
    ∃ pre cand post,
      found_paths_of downloadsDir output_lines = pre ++ cand :: post ∧
      (∀ c ∈ pre, fs (fullPathOf downloadsDir c) = false) ∧
      fs (fullPathOf downloadsDir cand) = true ∧
      rel = make_relative_path (fullPathOf downloadsDir cand) downloadsDir :=
  pickExisting_spec fs downloadsDir _ rel h

/-- Witness for C4 at the repository's own test scenario: two `Saved to:`
candidates where only the second (scanning most-recent-first) exists on
disk — resolution returns the existing one. -/
theorem claim_C4_resolver_existence_witness :
    ∃ pre cand post,
      found_paths_of "/d" ["Saved to: /d/missing.m4b", "Saved to: /d/exists.m4b"] =
        pre ++ cand :: post ∧
      (∀ c ∈ pre, (fun s => s == "/d/exists.m4b") (fullPathOf "/d" c) = false) ∧
      (fun s => s == "/d/exists.m4b") (fullPathOf "/d" cand) = true ∧
      "exists.m4b" = make_relative_path (fullPathOf "/d" cand) "/d" :=
  claim_C4_resolver_existence (fun s => s == "/d/exists.m4b") "/d"
    ["Saved to: /d/missing.m4b", "Saved to: /d/exists.m4b"] "exists.m4b"
    (by decide)

/-! ## Staging reconciler — `DownloadManager._unwrap_staging_dir`

The reconciler moves the contents of a per-task staging directory into the
shared downloads root.  The filesystem is modelled explicitly:

* a node is a file (with an abstract content identifier, to state
  preservation/overwriting) or a directory with a named-children listing;
* the downloads root is a listing; the staging directory is held separately
  (its own name, `__task_<id>__`, never collides with the claims' inputs);
* paths (`output_file`, `search_root`) are component lists
  (`normalize_path` is the identity on this representation);
* `shutil.move(src, dst)` with a non-existing `dst` appends an entry; with an
  existing file `dst` it overwrites via `os.rename` (POSIX), modelled by
  replacing the entry in place;
* `shutil.rmtree(staging_dir)` removes the staging directory
  (`staging := none` in the result);
* the `IndexError` that `rel.parts[0]` raises when the known output path
  equals the merged directory itself escapes `_unwrap_staging_dir` after the
  moves have happened; this is modelled by `ok = none` (the caller catches
  the exception and keeps its old `output_file` / `search_root`).
-/

/-- A filesystem node: a file with an abstract content identifier, or a
directory with named children. -/
inductive FsNode where
  | file (content : Nat)
  | dir (children : List (String × FsNode))

/-- A directory listing. -/
abbrev Listing : Type := List (String × FsNode)

/-- A filesystem path as components. -/
abbrev FsPath : Type := List String

/-- Name lookup in a listing (`(dir / name).exists()` and friends). -/
def lookupEntry : Listing → String → Option FsNode
  | [], _ => none
  | (k, v) :: rest, name => if k = name then some v else lookupEntry rest name

/-- Replace the entry with the given name in place. -/
def replaceEntry : Listing → String → FsNode → Listing
  | [], _, _ => []
  | (k, w) :: rest, name, v =>
    if k = name then (name, v) :: rest else (k, w) :: replaceEntry rest name v

/-- `shutil.move` of a node to `dir / name`: appends when the name is free,
overwrites in place when a file already sits there (POSIX `os.rename`). -/
def moveInto (l : Listing) (name : String) (v : FsNode) : Listing :=
  if (lookupEntry l name).isSome then replaceEntry l name v else l ++ [(name, v)]

/-- `pathlib` stem/suffix: split at the last dot when it is neither the
first nor the last character of the name. -/
def splitName (name : String) : String × String :=
  let cs := name.data
  match cs.reverse.findIdx? (fun c => c = '.') with
  | some j =>
    let i := cs.length - 1 - j
    if 0 < i ∧ i < cs.length - 1 then (String.mk (cs.take i), String.mk (cs.drop i))
    else (name, "")
  | none => (name, "")

/-- `f"{stem} ({i}){suffix}"`. -/
def mkSuffixedName (stem suffix : String) (i : Nat) : String :=
  stem ++ " (" ++ Nat.repr i ++ ")" ++ suffix

/-- The candidate name `_unique_destination` builds for the original `name`
and counter `i`. -/
def mkSuffixed (name : String) (i : Nat) : String :=
  mkSuffixedName (splitName name).1 (splitName name).2 i

/-- The search loop of `_unique_destination`: `for i in range(2, 10_000)`,
returning the first non-colliding candidate, with the `" (copy)"` fallback
when the whole range is exhausted. -/
def uniqueFrom (root : Listing) (stem suffix : String) : Nat → Nat → String
  | _, 0 => stem ++ " (copy)" ++ suffix
  | i, fuel + 1 =>
    let cand := mkSuffixedName stem suffix i
    if (lookupEntry root cand).isNone then cand
    else uniqueFrom root stem suffix (i + 1) fuel

/-- `DownloadManager._unique_destination` against the destination listing
(`range(2, 10_000)` is 9998 candidates). -/
def _unique_destination (root : Listing) (name : String) : String :=
  if (lookupEntry root name).isNone then name
  else uniqueFrom root (splitName name).1 (splitName name).2 2 9998

/-- `DownloadManager._merge_dir_contents`: move each child of the source
directory into the destination listing, renaming on collision; returns the
updated destination and the mapping of old child name to final child name
(the source keys each move under `src_dir / child.name`). -/
def _merge_dir_contents : List (String × FsNode) → Listing →
    Listing × List (String × String)
  | [], dest => (dest, [])
  | (n, node) :: rest, dest =>
    let n' := _unique_destination dest n
    let dest' := moveInto dest n' node
    let (destF, moved) := _merge_dir_contents rest dest'
    (destF, (n, n') :: moved)

/-- First-match lookup in the moved-children mapping (`moved_map.get`). -/
def lookupMoved : List (String × String) → String → Option String
  | [], _ => none
  | (k, v) :: rest, key => if k = key then some v else lookupMoved rest key

/-- Result of `_unwrap_staging_dir`: the downloads-root listing, the staging
directory contents when it still exists, and — unless the `IndexError`
escaped — the returned `(output_file, search_root)` pair. -/
structure UnwrapResult where
  root : Listing
  staging : Option Listing
  ok : Option (Option FsPath × FsPath)

/-- `DownloadManager._unwrap_staging_dir`.  `rootPath`/`stagingPath` are the
path components of `self.downloads_dir` and of the staging directory;
`root`/`staging` their listings; `output_file` the previously resolved
output path. -/
def _unwrap_staging_dir (rootPath stagingPath : FsPath) (root staging : Listing)
    (output_file : Option FsPath) : UnwrapResult :=
  match staging with
  | [(name, entry)] =>
    match entry with
    | .dir children =>
      match lookupEntry root name with
      | none =>
        -- move the whole directory, remove the staging directory
        let root' := root ++ [(name, entry)]
        let out :=
          match output_file with
          | some old =>
            if leadsWith (stagingPath ++ [name]) old then
              some (rootPath ++ [name] ++ old.drop (stagingPath.length + 1))
            else output_file
          | none => output_file
        ⟨root', none, some (out, rootPath ++ [name])⟩
      | some (.file _) =>
        -- destination exists but is not a directory: keep staging as-is
        ⟨root, some staging, some (output_file, stagingPath)⟩
      | some (.dir destChildren) =>
        let md := _merge_dir_contents children destChildren
        let root' := replaceEntry root name (.dir md.1)
        match output_file with
        | some old =>
          if leadsWith (stagingPath ++ [name]) old then
            match old.drop (stagingPath.length + 1) with
            | [] =>
              -- `rel.parts[0]` raises IndexError after the moves
              ⟨root', none, none⟩
            | top :: relRest =>
              match lookupMoved md.2 top with
              | some newTop =>
                ⟨root', none,
                  some (some (rootPath ++ [name, newTop] ++ relRest), rootPath ++ [name])⟩
              | none => ⟨root', none, some (output_file, rootPath ++ [name])⟩
          else ⟨root', none, some (output_file, rootPath ++ [name])⟩
        | none => ⟨root', none, some (none, rootPath ++ [name])⟩
    | .file _ =>
      -- single file: rename on collision, move, remove staging
      let target := _unique_destination root name
      let root' := moveInto root target entry
      let out :=
        if output_file = some (stagingPath ++ [name]) then
          some (rootPath ++ [target])
        else output_file
      ⟨root', none, some (out, rootPath)⟩
  | _ => ⟨root, some staging, some (output_file, stagingPath)⟩

/-! ### Claim C3 -/

/-- C3: if at unwrap time the staging directory contains anything other than
exactly one top-level entry, the unwrap performs no filesystem change at all
and returns the given output path unchanged together with the staging
directory itself as the new search root. -/
theorem claim_C3_unwrap_ambiguous_noop (rootPath stagingPath : FsPath)
    (root staging : Listing) (output_file : Option FsPath)
    (h : staging.length ≠ 1) :
    _unwrap_staging_dir rootPath stagingPath root staging output_file =
      ⟨root, some staging, some (output_file, stagingPath)⟩ := by
  match staging with
  | [] => rfl
  | [x] => exact absurd rfl h
  | x :: y :: rest => rfl

/-- Witness for C3: a staging directory with two top-level entries is left
untouched and the original output path and staging search root come back. -/
theorem claim_C3_unwrap_ambiguous_noop_witness :
    _unwrap_staging_dir [] ["__task_t__"] [("x.mp3", .file 0)]
        [("a.mp3", .file 1), ("b.mp3", .file 2)] (some ["old.mp3"]) =
      ⟨[("x.mp3", .file 0)], some [("a.mp3", .file 1), ("b.mp3", .file 2)],
        some (some ["old.mp3"], ["__task_t__"])⟩ :=
  claim_C3_unwrap_ambiguous_noop [] ["__task_t__"] [("x.mp3", .file 0)]
    [("a.mp3", .file 1), ("b.mp3", .file 2)] (some ["old.mp3"]) (by decide)

/-! ### Lookup lemmas for the reconciler -/

theorem lookupEntry_cons_isSome (k : String) (v : FsNode) (rest : Listing)
    (key : String) (h : (lookupEntry rest key).isSome) :
    (lookupEntry ((k, v) :: rest) key).isSome := by
  by_cases hk : k = key <;> simp [lookupEntry, hk, h]

theorem lookupEntry_map_isSome (f : Nat → String) (g : Nat → FsNode)
    (l : List Nat) (j : Nat) (hj : j ∈ l) :
    (lookupEntry (l.map (fun i => (f i, g i))) (f j)).isSome := by
  induction l with
  | nil => cases hj
  | cons i rest ih =>
    by_cases hf : f i = f j
    · simp [lookupEntry, hf]
    · have hmem : j ∈ rest := by
        rcases List.mem_cons.1 hj with rfl | h
        · exact absurd rfl hf
        · exact h
      simp [lookupEntry, hf, ih hmem]

theorem lookupEntry_append_some (l₁ l₂ : Listing) (key : String) (v : FsNode)
    (h : lookupEntry l₁ key = some v) :
    lookupEntry (l₁ ++ l₂) key = some v := by
  induction l₁ with
  | nil => cases h
  | cons e rest ih =>
    obtain ⟨k, w⟩ := e
    by_cases hk : k = key
    · simpa [lookupEntry, hk] using h
    · simp only [lookupEntry, hk, if_false, List.cons_append] at h ⊢
      exact ih h

theorem lookupEntry_append_none (l₁ l₂ : Listing) (key : String)
    (h : lookupEntry l₁ key = none) :
    lookupEntry (l₁ ++ l₂) key = lookupEntry l₂ key := by
  induction l₁ with
  | nil => rfl
  | cons e rest ih =>
    obtain ⟨k, w⟩ := e
    by_cases hk : k = key
    · simp [lookupEntry, hk] at h
    · simp only [lookupEntry, hk, if_false, List.cons_append] at h ⊢
      exact ih h

theorem lookupEntry_replaceEntry_self (l : Listing) (key : String) (v : FsNode)
    (h : (lookupEntry l key).isSome) :
    lookupEntry (replaceEntry l key v) key = some v := by
  induction l with
  | nil => simp [lookupEntry] at h
  | cons e rest ih =>
    obtain ⟨k, w⟩ := e
    by_cases hk : k = key
    · simp [replaceEntry, lookupEntry, hk]
    · simp only [lookupEntry, hk, if_false] at h
      simp [replaceEntry, lookupEntry, hk, ih h]

/-- When the whole `range(2, 10_000)` window collides, `_unique_destination`'s
loop falls back to the `" (copy)"` name. -/
theorem uniqueFrom_all_taken (root : Listing) (stem suffix : String) :
    ∀ (fuel start : Nat),
      (∀ j, start ≤ j → j < start + fuel →
        (lookupEntry root (mkSuffixedName stem suffix j)).isSome) →
      uniqueFrom root stem suffix start fuel = stem ++ " (copy)" ++ suffix := by
  intro fuel
  induction fuel with
  | zero => intro start _; rfl
  | succ n ih =>
    intro start h
    have hS := h start (Nat.le_refl _) (by omega)
    unfold uniqueFrom
    cases hc : lookupEntry root (mkSuffixedName stem suffix start) with
    | none => rw [hc] at hS; simp at hS
    | some v =>
      simp only [hc, Option.isNone_some, Bool.false_eq_true, if_false]
      exact ih (start + 1) (fun j h1 h2 => h j (by omega) (by omega))

/-- `_unique_destination`'s loop returns the *first* non-colliding numeric
candidate. -/
theorem uniqueFrom_first_free (root : Listing) (stem suffix : String) (i : Nat) :
    ∀ (fuel start : Nat), start ≤ i → i < start + fuel →
      lookupEntry root (mkSuffixedName stem suffix i) = none →
      (∀ j, start ≤ j → j < i →
        (lookupEntry root (mkSuffixedName stem suffix j)).isSome) →
      uniqueFrom root stem suffix start fuel = mkSuffixedName stem suffix i := by
  intro fuel
  induction fuel with
  | zero => intro start h1 h2 _ _; omega
  | succ n ih =>
    intro start h1 h2 hfree hmin
    unfold uniqueFrom
    by_cases heq : start = i
    · subst heq
      simp [hfree]
    · have hlt : start < i := by omega
      have hS := hmin start (Nat.le_refl _) hlt
      cases hc : lookupEntry root (mkSuffixedName stem suffix start) with
      | none => rw [hc] at hS; simp at hS
      | some v =>
        simp only [hc, Option.isNone_some, Bool.false_eq_true, if_false]
        exact ih (start + 1) (by omega) (by omega) hfree
          (fun j ha hb => hmin j (by omega) hb)

/-- `_unique_destination` at an occupied name with a free numeric suffix in
the search window. -/
theorem unique_destination_eq (root : Listing) (name : String) (i : Nat)
    (hold : (lookupEntry root name).isSome)
    (hfree : lookupEntry root (mkSuffixed name i) = none)
    (h2 : 2 ≤ i) (hcap : i < 10000)
    (hmin : ∀ j, 2 ≤ j → j < i → (lookupEntry root (mkSuffixed name j)).isSome) :
    _unique_destination root name = mkSuffixed name i := by
  unfold _unique_destination
  cases hc : lookupEntry root name with
  | none => rw [hc] at hold; simp at hold
  | some v =>
    simp only [hc, Option.isNone_some, Bool.false_eq_true, if_false]
    exact uniqueFrom_first_free root (splitName name).1 (splitName name).2 i
      9998 2 h2 (by omega) hfree hmin

/-- `_unique_destination` at an occupied name whose whole numeric search
window is occupied too: the `" (copy)"` fallback. -/
theorem unique_destination_copy (root : Listing) (name : String)
    (hold : (lookupEntry root name).isSome)
    (hall : ∀ j, 2 ≤ j → j < 10000 →
      (lookupEntry root (mkSuffixed name j)).isSome) :
    _unique_destination root name =
      (splitName name).1 ++ " (copy)" ++ (splitName name).2 := by
  unfold _unique_destination
  cases hc : lookupEntry root name with
  | none => rw [hc] at hold; simp at hold
  | some v =>
    simp only [hc, Option.isNone_some, Bool.false_eq_true, if_false]
    exact uniqueFrom_all_taken root (splitName name).1 (splitName name).2
      9998 2 (fun j h1 h2 => hall j h1 (by omega))

/-! ### Claim C2 -/

/-- C2 amended: when unwrapping a staging directory whose single top-level
entry is a file and a same-named file already exists in the downloads root,
*provided some numeric suffix candidate in the code's search window
`range(2, 10_000)` is non-colliding*, the reconciler preserves every
pre-existing entry of the destination: the incoming file is renamed to the
first non-colliding `" (i)"` name before its extension, afterwards both files
exist at the destination, the staging directory is removed, and the returned
output path refers to the newly renamed file (with the destination root as
the new search root). -/
theorem claim_C2_unwrap_file_collision_amended
    (rootPath stagingPath : FsPath) (root : Listing) (name : String) (c : Nat)
    (old : FsNode) (hold : lookupEntry root name = some old)
    (i : Nat) (h2 : 2 ≤ i) (hcap : i < 10000)
    (hfree : lookupEntry root (mkSuffixed name i) = none)
    (hmin : ∀ j, 2 ≤ j → j < i → (lookupEntry root (mkSuffixed name j)).isSome) :
    _unwrap_staging_dir rootPath stagingPath root [(name, .file c)]
        (some (stagingPath ++ [name])) =
      ⟨root ++ [(mkSuffixed name i, .file c)], none,
        some (some (rootPath ++ [mkSuffixed name i]), rootPath)⟩ ∧
    lookupEntry (root ++ [(mkSuffixed name i, .file c)]) name = some old ∧
    (∀ m v, lookupEntry root m = some v →
      lookupEntry (root ++ [(mkSuffixed name i, .file c)]) m = some v) ∧
    lookupEntry (root ++ [(mkSuffixed name i, .file c)]) (mkSuffixed name i) =
      some (.file c) := by
  have htarget : _unique_destination root name = mkSuffixed name i :=
    unique_destination_eq root name i (by rw [hold]; rfl) hfree h2 hcap hmin
  refine ⟨?_, ?_, ?_, ?_⟩
  · simp only [_unwrap_staging_dir, htarget]
    simp [moveInto, hfree]
  · exact lookupEntry_append_some _ _ _ _ hold
  · intro m v hmv
    exact lookupEntry_append_some _ _ _ _ hmv
  · rw [lookupEntry_append_none _ _ _ hfree]
    simp [lookupEntry]

/-- Witness for the amended C2: a staging file `book.mp3` colliding with an
existing `book.mp3` is renamed to `book (2).mp3`; both files exist
afterwards and the returned output path points at the renamed file. -/
theorem claim_C2_unwrap_file_collision_amended_witness :
    _unwrap_staging_dir [] ["__task_t__"] [("book.mp3", FsNode.file 0)]
        [("book.mp3", FsNode.file 1)] (some ["__task_t__", "book.mp3"]) =
      ⟨[("book.mp3", FsNode.file 0), ("book (2).mp3", FsNode.file 1)], none,
        some (some ["book (2).mp3"], [])⟩ ∧
    lookupEntry [("book.mp3", FsNode.file 0), ("book (2).mp3", FsNode.file 1)]
        "book.mp3" = some (FsNode.file 0) ∧
    (∀ m v, lookupEntry [("book.mp3", FsNode.file 0)] m = some v →
      lookupEntry [("book.mp3", FsNode.file 0), ("book (2).mp3", FsNode.file 1)]
        m = some v) ∧
    lookupEntry [("book.mp3", FsNode.file 0), ("book (2).mp3", FsNode.file 1)]
        "book (2).mp3" = some (FsNode.file 1) :=
  claim_C2_unwrap_file_collision_amended [] ["__task_t__"]
    [("book.mp3", FsNode.file 0)] "book.mp3" 1 (FsNode.file 0) rfl 2
    (Nat.le_refl 2) (by omega) rfl (by intro j h1 h2; omega)

/-- The downloads root of the C2 counterexample: the original name, every
numeric suffix of the search window `range(2, 10_000)`, and the `" (copy)"`
fallback name are all occupied. -/
def cexBulk : Listing :=
  (List.range' 2 9998).map (fun i => (mkSuffixedName "b" ".mp3" i, FsNode.file i))

def cexRoot : Listing :=
  ("b (copy).mp3", FsNode.file 9) :: ("b.mp3", FsNode.file 0) :: cexBulk

/-- C2 counterexample: with `b.mp3`, all of `b (2).mp3` … `b (9999).mp3`, and
`b (copy).mp3` already present at the destination, unwrapping a staging
directory whose single entry is the file `b.mp3` renames the incoming file to
the *non-numeric* fallback `b (copy).mp3` and `shutil.move` then overwrites
the pre-existing `b (copy).mp3` (content 9 is replaced by content 1 and
lost), and the returned output path refers to the overwritten destination —
so "never deletes or overwrites the pre-existing destination content" and
"renamed by appending the first non-colliding numeric suffix" both fail. -/
theorem claim_C2_counterexample :
    lookupEntry cexRoot "b (copy).mp3" = some (FsNode.file 9) ∧
    lookupEntry cexRoot "b.mp3" = some (FsNode.file 0) ∧
    lookupEntry
        (_unwrap_staging_dir [] ["__task_t__"] cexRoot [("b.mp3", FsNode.file 1)]
          (some ["__task_t__", "b.mp3"])).root "b (copy).mp3" =
      some (FsNode.file 1) ∧
    (_unwrap_staging_dir [] ["__task_t__"] cexRoot [("b.mp3", FsNode.file 1)]
        (some ["__task_t__", "b.mp3"])).ok =
      some (some ["b (copy).mp3"], []) ∧
    FsNode.file 9 ≠ FsNode.file 1 := by
  have hsplit : splitName "b.mp3" = ("b", ".mp3") := by decide
  have hold : (lookupEntry cexRoot "b.mp3").isSome := rfl
  have hall : ∀ j, 2 ≤ j → j < 10000 →
      (lookupEntry cexRoot (mkSuffixed "b.mp3" j)).isSome := by
    intro j h1 h2
    have hms : mkSuffixed "b.mp3" j = mkSuffixedName "b" ".mp3" j := by
      simp [mkSuffixed, hsplit]
    rw [hms]
    apply lookupEntry_cons_isSome
    apply lookupEntry_cons_isSome
    exact lookupEntry_map_isSome (fun i => mkSuffixedName "b" ".mp3" i)
      (fun i => FsNode.file i) (List.range' 2 9998) j
      (List.mem_range'_1.2 ⟨h1, by omega⟩)
  have hcopy : _unique_destination cexRoot "b.mp3" = "b (copy).mp3" := by
    rw [unique_destination_copy cexRoot "b.mp3" hold hall, hsplit]
    rfl
  have hres : _unwrap_staging_dir [] ["__task_t__"] cexRoot
      [("b.mp3", FsNode.file 1)] (some ["__task_t__", "b.mp3"]) =
      ⟨replaceEntry cexRoot "b (copy).mp3" (FsNode.file 1), none,
        some (some ["b (copy).mp3"], [])⟩ := by
    simp only [_unwrap_staging_dir, hcopy]
    unfold moveInto
    rw [show (lookupEntry cexRoot "b (copy).mp3").isSome = true from rfl]
    simp
  refine ⟨rfl, rfl, ?_, ?_, by simp⟩
  · rw [hres]
    exact lookupEntry_replaceEntry_self cexRoot "b (copy).mp3" (FsNode.file 1) rfl
  · rw [hres]

end AudiobookDlWeb
